import Mathlib

/-!
Verification of the record-store subsystem of the Books backend
(`src/main.rs`): the book catalog operations (`read_books_from_file`,
`write_books_to_file`, `add_or_update_book`, `get_book_with_query`,
`get_book_by_id`) and the credential operations (`load_users`,
`save_user`).

Modelling conventions.  File contents are modelled at the JSON-AST
level: a file either is absent (`none`) or holds one `Json` document;
the textual rendering / parsing done by `serde_json` is external to the
repository, while the shape of the documents (field names, element
types, the derived `Serialize`/`Deserialize` impls of `Book` and
`User`) is modelled faithfully by `encodeBook` / `decodeBook` etc.
`std::fs` is modelled by `FS`: a map from path to optional contents
plus a writability predicate (`fs::write` fails exactly on
non-writable paths).  Rust `u32` ids are modelled as `Nat`; the bound
`id < 2^32` shows up only where JSON decoding of a `u32` checks it.
The two `io::Error` / `serde_json::Error` sources both convert into
`BookError` through its two `#[from]` conversions, exactly as in the
source: in particular an `io::Error` raised by `fs::write` becomes
`BookError.FileReadError`.
-/

set_option autoImplicit false

namespace Books

/-- Model of `struct Book { id: u32, title: String, content: String, tags: Vec<String> }`. -/
structure Book where
  id : Nat
  title : String
  content : String
  tags : List String
  deriving DecidableEq, Repr

/-- Model of `struct User { username: String, password: String }` (the
`password` field stores the hash artifact, see `save_user`). -/
structure User where
  username : String
  password : String
  deriving DecidableEq, Repr

/-- JSON documents, the shape level of `serde_json` values.  Numbers are
restricted to the non-negative integers actually produced by
serializing `u32` fields. -/
inductive Json where
  | null : Json
  | bool : Bool → Json
  | num : Nat → Json
  | str : String → Json
  | arr : List Json → Json
  | obj : List (String × Json) → Json

/-- Model of `enum BookError { FileReadError(std::io::Error), JsonParseError(serde_json::Error) }`.
The payloads carry no information used by the program logic, so they are dropped. -/
inductive BookError where
  | FileReadError : BookError
  | JsonParseError : BookError
  deriving DecidableEq, Repr

/-- The file system visible to the process: per-path optional contents
(`none` models a missing or unreadable file, the condition under which
`fs::read_to_string` / `fs::File::open` return an `io::Error`), and a
per-path writability flag (`fs::write` returns an `io::Error` exactly
on non-writable paths). -/
structure FS where
  contents : String → Option Json
  writable : String → Bool

/-- Serialization of one `Book` as derived by `#[derive(Serialize)]`:
an object with fields `id`, `title`, `content`, `tags` in declaration order. -/
def encodeBook (b : Book) : Json :=
  .obj [("id", .num b.id), ("title", .str b.title),
        ("content", .str b.content), ("tags", .arr (b.tags.map .str))]

/-- Serialization of `Vec<Book>`: a JSON array of the encoded records. -/
def encodeBooks (books : List Book) : Json :=
  .arr (books.map encodeBook)

/-- Serialization of one `User` as derived by `#[derive(Serialize)]`. -/
def encodeUser (u : User) : Json :=
  .obj [("username", .str u.username), ("password", .str u.password)]

/-- Serialization of `Vec<User>`. -/
def encodeUsers (users : List User) : Json :=
  .arr (users.map encodeUser)

/-- Lookup of a field in a JSON object, first occurrence. -/
def getField (fields : List (String × Json)) (name : String) : Option Json :=
  (fields.find? (fun kv => kv.1 == name)).map (fun kv => kv.2)

/-- Deserialization of a JSON value into a Rust `String`. -/
def decodeString : Json → Option String
  | .str s => some s
  | _ => none

/-- Deserialization of a JSON value into a Rust `u32`: a non-negative
integer below `2^32`. -/
def decodeU32 : Json → Option Nat
  | .num n => if n < 2 ^ 32 then some n else none
  | _ => none

/-- Deserialization of a JSON sequence element-wise; fails as soon as
one element fails, as serde does. -/
def decodeList {α : Type} (dec : Json → Option α) : List Json → Option (List α)
  | [] => some []
  | j :: js => do
      let x ← dec j
      let xs ← decodeList dec js
      some (x :: xs)

/-- Deserialization of a JSON value into `Vec<String>`. -/
def decodeStrings : Json → Option (List String)
  | .arr xs => decodeList decodeString xs
  | _ => none

/-- Deserialization of one `Book` as derived by `#[derive(Deserialize)]`:
requires an object carrying all four fields with values of the right shapes. -/
def decodeBook (j : Json) : Option Book :=
  match j with
  | .obj fields => do
      let id ← decodeU32 (← getField fields "id")
      let title ← decodeString (← getField fields "title")
      let content ← decodeString (← getField fields "content")
      let tags ← decodeStrings (← getField fields "tags")
      some ⟨id, title, content, tags⟩
  | _ => none

/-- Deserialization of `Vec<Book>`. -/
def decodeBooks : Json → Option (List Book)
  | .arr xs => decodeList decodeBook xs
  | _ => none

/-- Deserialization of one `User`. -/
def decodeUser (j : Json) : Option User :=
  match j with
  | .obj fields => do
      let username ← decodeString (← getField fields "username")
      let password ← decodeString (← getField fields "password")
      some ⟨username, password⟩
  | _ => none

/-- Deserialization of `Vec<User>`. -/
def decodeUsers : Json → Option (List User)
  | .arr xs => decodeList decodeUser xs
  | _ => none

/-- Model of `read_books_from_file`: `fs::read_to_string(file_path)?`
(an `io::Error` becomes `FileReadError` via `#[from]`), then
`serde_json::from_str::<Vec<Book>>(&contents)?` (a `serde_json::Error`
becomes `JsonParseError` via `#[from]`). -/
def read_books_from_file (fs : FS) (file_path : String) : Except BookError (List Book) :=
  match fs.contents file_path with
  | none => .error .FileReadError
  | some j =>
      match decodeBooks j with
      | none => .error .JsonParseError
      | some books => .ok books

/-- Model of `write_books_to_file`: `serde_json::to_string_pretty(books)?`
(total on these types) then `fs::write(file_path, contents)?`; the
`io::Error` of a failing write converts via `#[from] std::io::Error`
into `BookError::FileReadError`.  On success the whole file is replaced
by the serialized sequence. -/
def write_books_to_file (fs : FS) (file_path : String) (books : List Book) :
    Except BookError FS :=
  if fs.writable file_path then
    .ok { fs with
          contents := fun p => if p = file_path then some (encodeBooks books) else fs.contents p }
  else
    .error .FileReadError

/-- The in-memory mutation step of `add_or_update_book`:
`books.iter_mut().position(|b| b.id == new_book.id)` is `List.findIdx?`;
on `Some(pos)` the record is replaced in place (`books[pos] = new_book`,
that is `List.set`), on `None` the new record is pushed at the end. -/
def add_or_update_book (books : List Book) (new_book : Book) : List Book :=
  match books.findIdx? (fun b => b.id == new_book.id) with
  | some pos => books.set pos new_book
  | none => books ++ [new_book]

/-- Model of the whole `POST /books` handler body after the file path
has been fetched from `AppState`: read the catalog, upsert in memory,
write the full sequence back, and answer with the post-upsert catalog. -/
def add_or_update_book_handler (fs : FS) (file_path : String) (new_book : Book) :
    Except BookError (FS × List Book) :=
  match read_books_from_file fs file_path with
  | .error e => .error e
  | .ok books =>
      let updated := add_or_update_book books new_book
      match write_books_to_file fs file_path updated with
      | .error e => .error e
      | .ok fs' => .ok (fs', updated)

/-- The retain predicate of `get_book_with_query`:
`(query.id.map_or(true, |id| b.id == id)) && (query.tag.as_deref().map_or(true, |tag| b.tags.contains(tag)))`. -/
def book_query_pred (qid : Option Nat) (qtag : Option String) (b : Book) : Bool :=
  (qid.elim true (fun i => b.id == i)) && (qtag.elim true (fun t => b.tags.contains t))

/-- The in-memory filtering step of `get_book_with_query`. -/
def get_book_with_query (qid : Option Nat) (qtag : Option String) (books : List Book) :
    List Book :=
  books.filter (book_query_pred qid qtag)

/-- Model of the whole `GET /books/search` handler body after the file
path has been fetched from `AppState`. -/
def get_book_with_query_handler (fs : FS) (file_path : String)
    (qid : Option Nat) (qtag : Option String) : Except BookError (List Book) :=
  match read_books_from_file fs file_path with
  | .error e => .error e
  | .ok books => .ok (get_book_with_query qid qtag books)

/-- The in-memory filtering step of `get_book_by_id`:
`books.into_iter().filter(|b| b.id == id).collect()`. -/
def get_book_by_id (books : List Book) (id : Nat) : List Book :=
  books.filter (fun b => b.id == id)

/-- Model of the whole `GET /books/id/{id}` handler body after the file
path has been fetched from `AppState`: the (possibly empty) vector of
matches is answered with HTTP 200, never an error. -/
def get_book_by_id_handler (fs : FS) (file_path : String) (id : Nat) :
    Except BookError (List Book) :=
  match read_books_from_file fs file_path with
  | .error e => .error e
  | .ok books => .ok (get_book_by_id books id)

/-- Model of `load_users`: `fs::File::open("users.json")` returning
`Err` (missing file) yields `Vec::new()`; otherwise the contents are
deserialized with `serde_json::from_str(..).unwrap_or_else(|_| Vec::new())`,
so a parse failure also yields the empty vector.  (The intermediate
`read_to_string(..).unwrap()` cannot fail once the file is present in
this model.) -/
def load_users (fs : FS) : List User :=
  match fs.contents "users.json" with
  | none => []
  | some j => (decodeUsers j).getD []

/-- Model of `save_user`: hash the raw password (`hash_password` wraps
the external `argon2` derivation, passed here as the function
`hashPassword`), append the new record to `load_users()`, serialize
the full sequence and `fs::write("src/users/users.json", json)`.  The
source unwraps the write with `.expect(..)` (a panic); the panic case
is modelled as `none`. -/
def save_user (hashPassword : String → String) (fs : FS)
    (username password : String) : Option FS :=
  let hashed_password := hashPassword password
  let new_user : User := ⟨username, hashed_password⟩
  let users := load_users fs ++ [new_user]
  let json := encodeUsers users
  if fs.writable "src/users/users.json" then
    some { fs with
           contents := fun p => if p = "src/users/users.json" then some json else fs.contents p }
  else
    none

/-! ### Concurrency model of the `POST /books` handler

The handler body consists of three effectful phases, in program order:
`fetchPath` (lock the `Mutex<AppState>`, clone `data_file`, and drop
the guard — the scope of the guard is the small block ending before any
file access, so the lock is acquired and released entirely inside this
phase and is never held across the following phases), `readFile`
(`read_books_from_file`), and `writeFile` (`write_books_to_file` of
the upserted snapshot).  Because the lock is free between phases, any
interleaving of the phases of two concurrent requests is possible; the
model below executes two such requests under an explicit schedule. -/

/-- The three effectful phases of one `add_or_update_book` request. -/
inductive HandlerStep where
  | fetchPath : HandlerStep
  | readFile : HandlerStep
  | writeFile : HandlerStep
  deriving DecidableEq, Repr

/-- The phases of the handler in program order. -/
def handler_program : List HandlerStep := [.fetchPath, .readFile, .writeFile]

/-- Local state of one in-flight request: program counter and the
in-memory snapshot produced by its `readFile` phase. -/
structure ThreadSt where
  pc : Nat
  snapshot : List Book
  deriving DecidableEq, Repr

/-- Shared state of two concurrent `POST /books` requests: the catalog
file (at the JSON-shape level, one decoded `List Book`) and the two
request-local states. -/
structure SysSt where
  file : List Book
  th1 : ThreadSt
  th2 : ThreadSt
  deriving DecidableEq, Repr

/-- Execute the next phase of one request upserting `b`: `fetchPath`
touches only the path, `readFile` snapshots the current file,
`writeFile` replaces the whole file with the upsert of the snapshot. -/
def runStep (file : List Book) (ts : ThreadSt) (b : Book) : List Book × ThreadSt :=
  match handler_program[ts.pc]? with
  | none => (file, ts)
  | some .fetchPath => (file, { ts with pc := ts.pc + 1 })
  | some .readFile => (file, { pc := ts.pc + 1, snapshot := file })
  | some .writeFile => (add_or_update_book ts.snapshot b, { ts with pc := ts.pc + 1 })

/-- Run two concurrent requests (request 1 upserting `b1`, request 2
upserting `b2`) under a schedule: `true` steps request 1, `false`
steps request 2. -/
def exec (b1 b2 : Book) : List Bool → SysSt → SysSt
  | [], s => s
  | tid :: rest, s =>
      if tid then
        let r := runStep s.file s.th1 b1
        exec b1 b2 rest { s with file := r.1, th1 := r.2 }
      else
        let r := runStep s.file s.th2 b2
        exec b1 b2 rest { s with file := r.1, th2 := r.2 }

/-- Initial state: both requests at their first phase. -/
def initSt (file : List Book) : SysSt := ⟨file, ⟨0, []⟩, ⟨0, []⟩⟩

/-- The interleaved schedule in which both requests read before either
writes; it is permitted because the lock is dropped inside `fetchPath`. -/
def lostUpdateSchedule : List Bool := [true, false, true, false, true, false]

/-- The serial schedule: request 1 runs to completion, then request 2. -/
def serialSchedule : List Bool := [true, true, true, false, false, false]

/-- The other serial schedule: request 2 runs to completion, then request 1. -/
def serialSchedule21 : List Bool := [false, false, false, true, true, true]

/-! ### Concrete data for witnesses and counterexamples -/

/-- A small demo catalog with distinct ids. -/
def demoBooks : List Book :=
  [⟨1, "Rust Basics", "intro", ["rust"]⟩,
   ⟨2, "Async in Rust", "futures", ["rust", "async"]⟩,
   ⟨3, "Parallelism", "threads", ["rust", "parallel"]⟩]

/-- An update for id 1: same key, new content. -/
def demoBook : Book := ⟨1, "Rust Basics v2", "intro revised", ["rust"]⟩

/-- A record with a fresh id. -/
def demoBookNew : Book := ⟨4, "Ownership", "borrowing", ["rust"]⟩

/-- A second distinct record with a fresh id. -/
def demoBook2 : Book := ⟨5, "Lifetimes", "scopes", ["rust"]⟩

/-- A file system holding the demo catalog at path `book.json`, fully writable. -/
def demoFS : FS :=
  ⟨fun p => if p = "book.json" then some (encodeBooks demoBooks) else none, fun _ => true⟩

/-- A file system with no files at all, fully writable. -/
def emptyFS : FS := ⟨fun _ => none, fun _ => true⟩

/-- A file system holding the demo catalog but rejecting every write. -/
def readOnlyFS : FS :=
  ⟨fun p => if p = "book.json" then some (encodeBooks demoBooks) else none, fun _ => false⟩

/-- A file system whose catalog file holds a JSON document of the wrong shape. -/
def badJsonFS : FS :=
  ⟨fun p => if p = "book.json" then some (.str "oops") else none, fun _ => true⟩

/-- A file system whose credential file holds a JSON document of the wrong shape. -/
def badUsersFS : FS :=
  ⟨fun p => if p = "users.json" then some (.str "oops") else none, fun _ => true⟩

/-- A stand-in for the external argon2 derivation used when evaluating
`save_user` at concrete inputs. -/
def demoHash : String → String := fun _ => "$argon2id$v=19$demo"

/-! ### Helper lemmas about `add_or_update_book` -/

/-- Upserting into the empty catalog appends the record. -/
theorem add_or_update_book_nil (b : Book) : add_or_update_book [] b = [b] := rfl

/-- Recursive characterization of `add_or_update_book`. -/
theorem add_or_update_book_cons (x : Book) (xs : List Book) (b : Book) :
    add_or_update_book (x :: xs) b =
      if x.id = b.id then b :: xs else x :: add_or_update_book xs b := by
  unfold add_or_update_book
  by_cases h : x.id = b.id
  · simp [List.findIdx?_cons, h]
  · simp only [List.findIdx?_cons, beq_iff_eq, h, if_false, if_neg, List.findIdx?_succ]
    cases hf : xs.findIdx? (fun bk => bk.id == b.id) with
    | none => simp [hf, h]
    | some j => simp [hf, h]

/-- Every record of the post-upsert catalog is an old record or the new one. -/
theorem mem_add_or_update (xs : List Book) (b y : Book)
    (h : y ∈ add_or_update_book xs b) : y ∈ xs ∨ y = b := by
  induction xs with
  | nil => simpa [add_or_update_book_nil] using h
  | cons x xs ih =>
    rw [add_or_update_book_cons] at h
    by_cases hid : x.id = b.id
    · rw [if_pos hid] at h
      rcases List.mem_cons.mp h with h1 | h1
      · exact Or.inr h1
      · exact Or.inl (List.mem_cons_of_mem _ h1)
    · rw [if_neg hid] at h
      rcases List.mem_cons.mp h with h1 | h1
      · exact Or.inl (h1 ▸ List.mem_cons_self _ _)
      · rcases ih h1 with h2 | h2
        · exact Or.inl (List.mem_cons_of_mem _ h2)
        · exact Or.inr h2

/-- Records whose id differs from the upserted id keep their values and
relative positions: filtering them out of the upsert result gives the
same sequence as filtering the input. -/
theorem add_or_update_filter_ne (books : List Book) (b : Book) :
    (add_or_update_book books b).filter (fun y => y.id != b.id)
      = books.filter (fun y => y.id != b.id) := by
  induction books with
  | nil => simp [add_or_update_book_nil]
  | cons x xs ih =>
    rw [add_or_update_book_cons]
    by_cases h : x.id = b.id
    · simp [if_pos h, List.filter_cons, h]
    · simp [if_neg h, List.filter_cons, h, ih]

/-- When no record carries the upserted id, the record is appended at the end. -/
theorem add_or_update_of_no_match (books : List Book) (b : Book)
    (h : ∀ x ∈ books, x.id ≠ b.id) :
    add_or_update_book books b = books ++ [b] := by
  have hn : books.findIdx? (fun bk => bk.id == b.id) = none := by
    rw [List.findIdx?_eq_none_iff]
    intro x hx
    simpa using h x hx
  unfold add_or_update_book
  rw [hn]

/-- Upserting the same record twice equals upserting it once. -/
theorem add_or_update_idem (books : List Book) (b : Book) :
    add_or_update_book (add_or_update_book books b) b = add_or_update_book books b := by
  induction books with
  | nil =>
    rw [add_or_update_book_nil, add_or_update_book_cons, if_pos rfl]
  | cons x xs ih =>
    rw [add_or_update_book_cons]
    by_cases h : x.id = b.id
    · rw [if_pos h, add_or_update_book_cons, if_pos rfl]
    · rw [if_neg h, add_or_update_book_cons, if_neg h, ih]

/-- Ids of the post-upsert catalog come from the input or the new record. -/
theorem mem_id_add_or_update (xs : List Book) (b : Book) (n : Nat)
    (h : n ∈ (add_or_update_book xs b).map Book.id) :
    n ∈ xs.map Book.id ∨ n = b.id := by
  rcases List.mem_map.mp h with ⟨y, hy, rfl⟩
  rcases mem_add_or_update xs b y hy with h1 | h1
  · exact Or.inl (List.mem_map_of_mem _ h1)
  · exact Or.inr (by rw [h1])

/-- Upserting preserves duplicate-freedom of the id sequence. -/
theorem nodup_ids_add_or_update (books : List Book) (b : Book)
    (h : (books.map Book.id).Nodup) :
    ((add_or_update_book books b).map Book.id).Nodup := by
  induction books with
  | nil => simp [add_or_update_book_nil]
  | cons x xs ih =>
    rw [add_or_update_book_cons]
    simp only [List.map_cons, List.nodup_cons] at h
    by_cases hid : x.id = b.id
    · rw [if_pos hid]
      simp only [List.map_cons, List.nodup_cons]
      exact ⟨by rw [← hid]; exact h.1, h.2⟩
    · rw [if_neg hid]
      simp only [List.map_cons, List.nodup_cons]
      refine ⟨fun hmem => ?_, ih h.2⟩
      rcases mem_id_add_or_update xs b x.id hmem with h2 | h2
      · exact h.1 h2
      · exact hid h2

/-- Any sequence of upserts starting from a duplicate-free catalog
keeps the id sequence duplicate-free. -/
theorem nodup_ids_foldl (bs : List Book) (start : List Book)
    (h : (start.map Book.id).Nodup) :
    ((bs.foldl add_or_update_book start).map Book.id).Nodup := by
  induction bs generalizing start with
  | nil => simpa using h
  | cons b bs ih =>
    simp only [List.foldl_cons]
    exact ih _ (nodup_ids_add_or_update start b h)

/-- When some record carries the upserted id, the first such record is
replaced in place and nothing else changes. -/
theorem add_or_update_first_match (books : List Book) (b : Book)
    (h : ∃ x ∈ books, x.id = b.id) :
    ∃ i, ∃ hi : i < books.length, (books.get ⟨i, hi⟩).id = b.id ∧
      (∀ j (hj : j < books.length), j < i → (books.get ⟨j, hj⟩).id ≠ b.id) ∧
      add_or_update_book books b = books.set i b := by
  have hex : ∃ x, x ∈ books ∧ (fun bk => bk.id == b.id) x := by
    rcases h with ⟨x, hx, hid⟩
    exact ⟨x, hx, by simpa using hid⟩
  have hsome := List.findIdx?_eq_some_of_exists hex
  rcases List.findIdx?_eq_some_iff_getElem.mp hsome with ⟨hlt, hp, hprev⟩
  refine ⟨books.findIdx (fun bk => bk.id == b.id), hlt, by simpa using hp, ?_, ?_⟩
  · intro j hj hlt2
    have := hprev j hlt2
    simpa using this
  · unfold add_or_update_book
    rw [hsome]

/-! ### Codec round-trip lemmas -/

/-- Decoding an element-wise encoded sequence restores the sequence,
given that every element round-trips. -/
theorem decodeList_map {α : Type} (dec : Json → Option α) (enc : α → Json)
    (xs : List α) (h : ∀ x ∈ xs, dec (enc x) = some x) :
    decodeList dec (xs.map enc) = some xs := by
  induction xs with
  | nil => rfl
  | cons x xs ih =>
    have hx := h x (List.mem_cons_self _ _)
    have hxs := ih fun y hy => h y (List.mem_cons_of_mem _ hy)
    simp [decodeList, hx, hxs]

/-- Decoding a serialized `Book` restores the record, given that its id
fits in a `u32` (always true of values originating in the program). -/
theorem decodeBook_encodeBook (b : Book) (h : b.id < 2 ^ 32) :
    decodeBook (encodeBook b) = some b := by
  have hmap : decodeList decodeString (b.tags.map Json.str) = some b.tags :=
    decodeList_map decodeString Json.str b.tags (fun x _ => rfl)
  have h4 : b.id < 4294967296 := h
  simp [decodeBook, encodeBook, getField, List.find?, decodeU32, decodeString,
        decodeStrings, hmap, h4]

/-- Decoding a serialized catalog restores the catalog. -/
theorem decodeBooks_encodeBooks (books : List Book) (h : ∀ b ∈ books, b.id < 2 ^ 32) :
    decodeBooks (encodeBooks books) = some books := by
  simp only [encodeBooks, decodeBooks]
  exact decodeList_map decodeBook encodeBook books
    (fun b hb => decodeBook_encodeBook b (h b hb))

/-- Decoding a serialized `User` restores the record. -/
theorem decodeUser_encodeUser (u : User) : decodeUser (encodeUser u) = some u := rfl

/-- Decoding a serialized credential sequence restores the sequence. -/
theorem decodeUsers_encodeUsers (users : List User) :
    decodeUsers (encodeUsers users) = some users := by
  simp only [encodeUsers, decodeUsers]
  exact decodeList_map decodeUser encodeUser users (fun u _ => decodeUser_encodeUser u)

/-! ### Read / write lemmas -/

/-- A missing or unreadable file makes `read_books_from_file` fail with
`FileReadError`. -/
theorem read_error_of_missing (fs : FS) (path : String)
    (h : fs.contents path = none) :
    read_books_from_file fs path = .error .FileReadError := by
  unfold read_books_from_file
  rw [h]

/-- Contents of the wrong shape make `read_books_from_file` fail with
`JsonParseError`. -/
theorem read_error_of_bad_shape (fs : FS) (path : String) (j : Json)
    (h1 : fs.contents path = some j) (h2 : decodeBooks j = none) :
    read_books_from_file fs path = .error .JsonParseError := by
  unfold read_books_from_file
  rw [h1]
  show (match decodeBooks j with
        | none => Except.error BookError.JsonParseError
        | some books => Except.ok books) = Except.error BookError.JsonParseError
  rw [h2]

/-- A failing overwrite makes `write_books_to_file` fail, and the error
kind is `FileReadError` (the `io::Error` of `fs::write` converts via
the same `#[from] std::io::Error` as read failures). -/
theorem write_error_of_unwritable (fs : FS) (path : String) (books : List Book)
    (h : fs.writable path = false) :
    write_books_to_file fs path books = .error .FileReadError := by
  unfold write_books_to_file
  rw [h]
  rfl

/-- A successful whole-file overwrite followed by a read of the same
path restores the written catalog, and no other path changes. -/
theorem write_read_ok (fs : FS) (path : String) (books : List Book)
    (hw : fs.writable path = true) (hids : ∀ b ∈ books, b.id < 2 ^ 32) :
    ∃ fs', write_books_to_file fs path books = .ok fs' ∧
      read_books_from_file fs' path = .ok books ∧
      fs'.contents path = some (encodeBooks books) ∧
      fs'.writable = fs.writable ∧
      ∀ p, p ≠ path → fs'.contents p = fs.contents p := by
  refine ⟨{ fs with contents :=
              fun p => if p = path then some (encodeBooks books) else fs.contents p },
          ?_, ?_, ?_, rfl, ?_⟩
  · unfold write_books_to_file
    rw [hw]
    simp
  · unfold read_books_from_file
    simp [decodeBooks_encodeBooks books hids]
  · simp
  · intro p hp
    simp [hp]

/-- A file holding the serialization of a catalog reads back as that
catalog. -/
theorem read_ok_of_contents (fs : FS) (path : String) (books : List Book)
    (h : fs.contents path = some (encodeBooks books))
    (hids : ∀ b ∈ books, b.id < 2 ^ 32) :
    read_books_from_file fs path = .ok books := by
  unfold read_books_from_file
  rw [h]
  show (match decodeBooks (encodeBooks books) with
        | none => Except.error BookError.JsonParseError
        | some bs => Except.ok bs) = Except.ok books
  rw [decodeBooks_encodeBooks books hids]

/-- Upserting a record with an in-range id keeps every id in range. -/
theorem ids_lt_add_or_update (books : List Book) (b : Book)
    (hids : ∀ x ∈ books, x.id < 2 ^ 32) (hb : b.id < 2 ^ 32) :
    ∀ x ∈ add_or_update_book books b, x.id < 2 ^ 32 := by
  intro x hx
  rcases mem_add_or_update books b x hx with h | h
  · exact hids x h
  · rw [h]
    exact hb

/-! ### Handler lemmas -/

/-- On a readable catalog and writable path, the `POST /books` handler
returns the post-upsert catalog and persists exactly its serialization,
leaving every other path untouched. -/
theorem add_or_update_handler_ok (fs : FS) (path : String) (books : List Book) (b : Book)
    (hread : read_books_from_file fs path = .ok books)
    (hw : fs.writable path = true) :
    ∃ fs', add_or_update_book_handler fs path b = .ok (fs', add_or_update_book books b) ∧
      fs'.contents path = some (encodeBooks (add_or_update_book books b)) ∧
      fs'.writable = fs.writable ∧
      ∀ p, p ≠ path → fs'.contents p = fs.contents p := by
  have hwrite : write_books_to_file fs path (add_or_update_book books b) =
      .ok { fs with contents := fun p =>
              if p = path then some (encodeBooks (add_or_update_book books b))
              else fs.contents p } := by
    unfold write_books_to_file
    rw [hw]
    simp
  refine ⟨{ fs with contents := fun p =>
              if p = path then some (encodeBooks (add_or_update_book books b))
              else fs.contents p },
          ?_, by simp, rfl, fun p hp => by simp [hp]⟩
  unfold add_or_update_book_handler
  simp only [hread, hwrite]

/-- A failing overwrite makes the whole `POST /books` handler fail with
the same `FileReadError` kind that read failures produce; nothing is
persisted. -/
theorem add_or_update_handler_write_failure (fs : FS) (path : String)
    (books : List Book) (b : Book)
    (hread : read_books_from_file fs path = .ok books)
    (hw : fs.writable path = false) :
    add_or_update_book_handler fs path b = .error .FileReadError := by
  have hwrite := write_error_of_unwritable fs path (add_or_update_book books b) hw
  unfold add_or_update_book_handler
  simp only [hread, hwrite]

/-- On a readable catalog, the search handler answers the filtered
catalog, an empty result included, never an error. -/
theorem get_book_with_query_handler_ok (fs : FS) (path : String) (books : List Book)
    (qid : Option Nat) (qtag : Option String)
    (hread : read_books_from_file fs path = .ok books) :
    get_book_with_query_handler fs path qid qtag = .ok (get_book_with_query qid qtag books) := by
  unfold get_book_with_query_handler
  simp only [hread]

/-- On a readable catalog, the by-id handler answers the (possibly
empty) vector of matches, never an error. -/
theorem get_book_by_id_handler_ok (fs : FS) (path : String) (books : List Book) (i : Nat)
    (hread : read_books_from_file fs path = .ok books) :
    get_book_by_id_handler fs path i = .ok (get_book_by_id books i) := by
  unfold get_book_by_id_handler
  simp only [hread]

/-! ### Query lemmas -/

/-- Membership characterization of the search filter. -/
theorem mem_get_book_with_query (qid : Option Nat) (qtag : Option String)
    (books : List Book) (r : Book) :
    r ∈ get_book_with_query qid qtag books ↔
      r ∈ books ∧ (∀ i, qid = some i → r.id = i) ∧ (∀ t, qtag = some t → t ∈ r.tags) := by
  cases qid <;> cases qtag <;>
    simp [get_book_with_query, book_query_pred, List.mem_filter, and_assoc]

/-- The search result is a subsequence of the catalog: original order,
no duplication, no invention. -/
theorem get_book_with_query_sublist (qid : Option Nat) (qtag : Option String)
    (books : List Book) :
    List.Sublist (get_book_with_query qid qtag books) books :=
  List.filter_sublist books

/-- Absent predicates impose no constraint: the full catalog comes back. -/
theorem get_book_with_query_none_none (books : List Book) :
    get_book_with_query none none books = books := by
  simp [get_book_with_query, book_query_pred]

/-- Membership characterization of the by-id filter. -/
theorem mem_get_book_by_id (books : List Book) (i : Nat) (r : Book) :
    r ∈ get_book_by_id books i ↔ r ∈ books ∧ r.id = i := by
  simp [get_book_by_id, List.mem_filter]

/-- On a duplicate-free catalog the by-id filter has at most one match. -/
theorem get_book_by_id_length_le (books : List Book) (i : Nat)
    (h : (books.map Book.id).Nodup) :
    (get_book_by_id books i).length ≤ 1 := by
  induction books with
  | nil => simp [get_book_by_id]
  | cons x xs ih =>
    simp only [List.map_cons, List.nodup_cons] at h
    unfold get_book_by_id at ih ⊢
    rw [List.filter_cons]
    by_cases hx : x.id = i
    · have hnil : xs.filter (fun b => b.id == i) = [] := by
        rw [List.filter_eq_nil_iff]
        intro y hy
        simp only [beq_iff_eq]
        intro hyi
        exact h.1 (by rw [hx, ← hyi]; exact List.mem_map_of_mem Book.id hy)
      simp [hx, hnil]
    · simp only [beq_iff_eq, hx]
      simpa using ih h.2

/-- A catalog with no matching id filters to the empty vector. -/
theorem get_book_by_id_eq_nil (books : List Book) (i : Nat)
    (h : ∀ r ∈ books, r.id ≠ i) :
    get_book_by_id books i = [] := by
  rw [get_book_by_id, List.filter_eq_nil_iff]
  intro r hr
  simpa using h r hr

/-! ### Credential store lemmas -/

/-- A missing credential file loads as the empty sequence. -/
theorem load_users_of_missing (fs : FS) (h : fs.contents "users.json" = none) :
    load_users fs = [] := by
  unfold load_users
  rw [h]

/-- A credential file of the wrong shape also loads as the empty sequence. -/
theorem load_users_of_bad_shape (fs : FS) (j : Json)
    (h1 : fs.contents "users.json" = some j) (h2 : decodeUsers j = none) :
    load_users fs = [] := by
  unfold load_users
  rw [h1]
  show (decodeUsers j).getD [] = []
  rw [h2]
  rfl

/-- The paths of `load_users` and `save_user` differ. -/
theorem users_paths_differ : ("users.json" : String) ≠ "src/users/users.json" := by
  decide

/-- A successful `save_user` writes the appended sequence to
`src/users/users.json`, but a subsequent `load_users` — which reads
`users.json` — observes the unchanged old sequence. -/
theorem save_user_load_unchanged (hashPassword : String → String) (fs : FS)
    (u p : String) (hw : fs.writable "src/users/users.json" = true) :
    ∃ fs', save_user hashPassword fs u p = some fs' ∧
      fs'.contents "src/users/users.json" =
        some (encodeUsers (load_users fs ++ [⟨u, hashPassword p⟩])) ∧
      load_users fs' = load_users fs := by
  refine ⟨{ fs with contents := fun q =>
              if q = "src/users/users.json"
              then some (encodeUsers (load_users fs ++ [⟨u, hashPassword p⟩]))
              else fs.contents q },
          ?_, by simp, ?_⟩
  · unfold save_user
    rw [hw]
    simp
  · show load_users _ = load_users fs
    unfold load_users
    simp [users_paths_differ]

/-! ### Concurrency lemmas -/

/-- Under the interleaved schedule both requests complete, yet the
final file equals the upsert of request 2 computed from its stale
snapshot: the update of request 1 is lost.  Under the serial schedule the
two upserts compose. -/
theorem exec_lost_update (file : List Book) (b1 b2 : Book) :
    (exec b1 b2 lostUpdateSchedule (initSt file)).file = add_or_update_book file b2 ∧
    (exec b1 b2 lostUpdateSchedule (initSt file)).th1.pc = 3 ∧
    (exec b1 b2 lostUpdateSchedule (initSt file)).th2.pc = 3 ∧
    (exec b1 b2 serialSchedule (initSt file)).file =
      add_or_update_book (add_or_update_book file b1) b2 ∧
    (exec b1 b2 serialSchedule21 (initSt file)).file =
      add_or_update_book (add_or_update_book file b2) b1 := by
  exact ⟨rfl, rfl, rfl, rfl, rfl⟩

/-! ### Claim theorems -/

/-- C1: for every catalog and every book `b`, `add_or_update_book`
replaces the first record whose id equals `b.id` in its original
position when one exists, appends `b` at the end otherwise, keeps the
values and relative positions of all records with other ids, and the
handler writes the full resulting sequence to the file as a whole-file
overwrite and returns the post-upsert full catalog. -/
theorem claim_upsert_correct (books : List Book) (b : Book) (fs : FS) (path : String)
    (hread : read_books_from_file fs path = .ok books)
    (hw : fs.writable path = true) :
    ((∃ x ∈ books, x.id = b.id) →
      ∃ i, ∃ hi : i < books.length, (books.get ⟨i, hi⟩).id = b.id ∧
        (∀ j (hj : j < books.length), j < i → (books.get ⟨j, hj⟩).id ≠ b.id) ∧
        add_or_update_book books b = books.set i b) ∧
    ((∀ x ∈ books, x.id ≠ b.id) → add_or_update_book books b = books ++ [b]) ∧
    ((add_or_update_book books b).filter (fun y => y.id != b.id)
        = books.filter (fun y => y.id != b.id)) ∧
    (∃ fs', add_or_update_book_handler fs path b = .ok (fs', add_or_update_book books b) ∧
      fs'.contents path = some (encodeBooks (add_or_update_book books b)) ∧
      ∀ p, p ≠ path → fs'.contents p = fs.contents p) := by
  refine ⟨add_or_update_first_match books b, add_or_update_of_no_match books b,
          add_or_update_filter_ne books b, ?_⟩
  obtain ⟨fs', h1, h2, _, h4⟩ := add_or_update_handler_ok fs path books b hread hw
  exact ⟨fs', h1, h2, h4⟩

/-- C1 witness: the claim evaluated on the demo catalog and an update
of the record with id 1. -/
theorem claim_upsert_correct_witness :
    (∃ i, ∃ hi : i < demoBooks.length, (demoBooks.get ⟨i, hi⟩).id = demoBook.id ∧
        (∀ j (hj : j < demoBooks.length), j < i →
          (demoBooks.get ⟨j, hj⟩).id ≠ demoBook.id) ∧
        add_or_update_book demoBooks demoBook = demoBooks.set i demoBook) ∧
    ((add_or_update_book demoBooks demoBook).filter (fun y => y.id != demoBook.id)
        = demoBooks.filter (fun y => y.id != demoBook.id)) ∧
    (∃ fs', add_or_update_book_handler demoFS "book.json" demoBook
        = .ok (fs', add_or_update_book demoBooks demoBook) ∧
      fs'.contents "book.json" = some (encodeBooks (add_or_update_book demoBooks demoBook)) ∧
      ∀ p, p ≠ "book.json" → fs'.contents p = demoFS.contents p) := by
  have h := claim_upsert_correct demoBooks demoBook demoFS "book.json" rfl rfl
  exact ⟨h.1 (by decide), h.2.2.1, h.2.2.2⟩

/-- C2: duplicate-freedom of ids is preserved by one upsert and by any
sequence of upserts, whether continued from a duplicate-free catalog
or started from the empty one. -/
theorem claim_upsert_unique_ids (books : List Book) (b : Book) (bs : List Book)
    (h : (books.map Book.id).Nodup) :
    ((add_or_update_book books b).map Book.id).Nodup ∧
    ((bs.foldl add_or_update_book books).map Book.id).Nodup ∧
    ((bs.foldl add_or_update_book []).map Book.id).Nodup :=
  ⟨nodup_ids_add_or_update books b h, nodup_ids_foldl bs books h,
   nodup_ids_foldl bs [] (by simp)⟩

/-- C2 witness: the claim evaluated on the demo catalog, one update and
a concrete upsert sequence. -/
theorem claim_upsert_unique_ids_witness :
    ((add_or_update_book demoBooks demoBook).map Book.id).Nodup ∧
    (([demoBookNew, demoBook2, demoBook].foldl add_or_update_book demoBooks).map Book.id).Nodup ∧
    (([demoBookNew, demoBook2, demoBook].foldl add_or_update_book []).map Book.id).Nodup :=
  claim_upsert_unique_ids demoBooks demoBook [demoBookNew, demoBook2, demoBook] (by decide)

/-- C3 counterexample: the claim asserts that a failed overwrite is
reported with a write-error kind distinguishable from the two
read-side kinds, but `BookError` has only the two constructors
`FileReadError` and `JsonParseError`, and the `io::Error` of a failing
`fs::write` converts through the same `#[from] std::io::Error` as read
failures: on a readable catalog with an unwritable path the handler
fails with exactly the same `FileReadError` value that a missing file
produces on the read side, so the write failure is not distinguishable
from a read failure. -/
theorem claim_error_kinds_counterexample :
    add_or_update_book_handler readOnlyFS "book.json" demoBook = .error BookError.FileReadError ∧
    read_books_from_file emptyFS "book.json" = .error BookError.FileReadError :=
  ⟨rfl, rfl⟩

/-- C3 (amended): `list` fails with `FileReadError` when the file is
missing or unreadable and with `JsonParseError` when the contents do
not deserialize, never substituting a default; a failing whole-file
overwrite makes the write and the whole upsert fail — not a partial
success — but the error is reported as `FileReadError`, the same kind
as read failures, there being no distinct write-error kind. -/
theorem claim_error_kinds_amended (fsM fsP fsW : FS) (path : String) (j : Json)
    (books : List Book) (b : Book)
    (hM : fsM.contents path = none)
    (hPj : fsP.contents path = some j) (hPbad : decodeBooks j = none)
    (hWr : read_books_from_file fsW path = .ok books)
    (hWw : fsW.writable path = false) :
    read_books_from_file fsM path = .error .FileReadError ∧
    read_books_from_file fsP path = .error .JsonParseError ∧
    write_books_to_file fsW path books = .error .FileReadError ∧
    add_or_update_book_handler fsW path b = .error .FileReadError :=
  ⟨read_error_of_missing fsM path hM,
   read_error_of_bad_shape fsP path j hPj hPbad,
   write_error_of_unwritable fsW path books hWw,
   add_or_update_handler_write_failure fsW path books b hWr hWw⟩

/-- C3 witness: the amended claim evaluated on a missing file, a file
of the wrong shape, and a read-only file system. -/
theorem claim_error_kinds_amended_witness :
    read_books_from_file emptyFS "book.json" = .error BookError.FileReadError ∧
    read_books_from_file badJsonFS "book.json" = .error BookError.JsonParseError ∧
    write_books_to_file readOnlyFS "book.json" demoBooks = .error BookError.FileReadError ∧
    add_or_update_book_handler readOnlyFS "book.json" demoBookNew
      = .error BookError.FileReadError :=
  claim_error_kinds_amended emptyFS badJsonFS readOnlyFS "book.json" (.str "oops")
    demoBooks demoBookNew rfl rfl rfl rfl rfl

/-- C4: evaluating the code at the failing input.  On a fresh system
(no files), `save_user` appends the hashed record and writes the
updated sequence — but to `src/users/users.json`, while `load_users`
reads `users.json`; the credential sequence observed via `load_users`
afterwards is still empty instead of having grown by one record. -/
theorem claim_register_growth_failing :
    ∃ fs', save_user demoHash emptyFS "user1" "password" = some fs' ∧
      fs'.contents "src/users/users.json"
        = some (encodeUsers [⟨"user1", demoHash "password"⟩]) ∧
      load_users emptyFS = [] ∧
      load_users fs' = [] := by
  obtain ⟨fs', h1, h2, h3⟩ :=
    save_user_load_unchanged demoHash emptyFS "user1" "password" rfl
  exact ⟨fs', h1, h2, rfl, h3⟩

/-- C5 counterexample: the claim implies that two concurrent upserts
serialize — every interleaving ends in a state some serial order
produces.  But the lock is dropped inside the path-fetch phase, before
any file access; under the read-read-write-write interleaving both
requests complete, the final catalog is `[demoBook2]`, different from
both serial outcomes, and the update of request 1 is lost. -/
theorem claim_lock_critical_section_counterexample :
    (exec demoBookNew demoBook2 lostUpdateSchedule (initSt [])).th1.pc = 3 ∧
    (exec demoBookNew demoBook2 lostUpdateSchedule (initSt [])).th2.pc = 3 ∧
    (exec demoBookNew demoBook2 lostUpdateSchedule (initSt [])).file = [demoBook2] ∧
    (exec demoBookNew demoBook2 serialSchedule (initSt [])).file = [demoBookNew, demoBook2] ∧
    (exec demoBookNew demoBook2 serialSchedule21 (initSt [])).file = [demoBook2, demoBookNew] ∧
    (exec demoBookNew demoBook2 lostUpdateSchedule (initSt [])).file ≠
      (exec demoBookNew demoBook2 serialSchedule (initSt [])).file ∧
    (exec demoBookNew demoBook2 lostUpdateSchedule (initSt [])).file ≠
      (exec demoBookNew demoBook2 serialSchedule21 (initSt [])).file := by
  refine ⟨rfl, rfl, rfl, rfl, rfl, by decide, by decide⟩

/-- C5 (amended): the exclusive lock of the store covers only the retrieval
of the file path — the guard is dropped before the file is touched —
so the read-modify-write of the file runs outside any critical
section: for every starting catalog, under the interleaved schedule
both concurrent upserts complete yet the final file equals the second
upsert by the second request of its stale snapshot (the first update is lost),
whereas the serial schedules compose the two upserts. -/
theorem claim_lock_critical_section_amended (file : List Book) (b1 b2 : Book) :
    (exec b1 b2 lostUpdateSchedule (initSt file)).file = add_or_update_book file b2 ∧
    (exec b1 b2 lostUpdateSchedule (initSt file)).th1.pc = 3 ∧
    (exec b1 b2 lostUpdateSchedule (initSt file)).th2.pc = 3 ∧
    (exec b1 b2 serialSchedule (initSt file)).file =
      add_or_update_book (add_or_update_book file b1) b2 ∧
    (exec b1 b2 serialSchedule21 (initSt file)).file =
      add_or_update_book (add_or_update_book file b2) b1 :=
  exec_lost_update file b1 b2

/-- C6: the search filter retains exactly the records, in original
order, satisfying both optional predicates; absent predicates impose
no constraint, and an empty result is a normal `.ok` value. -/
theorem claim_filter_correct (books : List Book) (qid : Option Nat) (qtag : Option String)
    (r : Book) (fs : FS) (path : String)
    (hread : read_books_from_file fs path = .ok books) :
    (r ∈ get_book_with_query qid qtag books ↔
      r ∈ books ∧ (∀ i, qid = some i → r.id = i) ∧ (∀ t, qtag = some t → t ∈ r.tags)) ∧
    List.Sublist (get_book_with_query qid qtag books) books ∧
    get_book_with_query none none books = books ∧
    get_book_with_query_handler fs path qid qtag = .ok (get_book_with_query qid qtag books) :=
  ⟨mem_get_book_with_query qid qtag books r,
   get_book_with_query_sublist qid qtag books,
   get_book_with_query_none_none books,
   get_book_with_query_handler_ok fs path books qid qtag hread⟩

/-- C6 witness: the claim evaluated on the demo catalog with the tag
predicate `rust` and with both predicates absent. -/
theorem claim_filter_correct_witness :
    List.Sublist (get_book_with_query none (some "rust") demoBooks) demoBooks ∧
    get_book_with_query none none demoBooks = demoBooks ∧
    get_book_with_query_handler demoFS "book.json" none (some "rust")
      = .ok (get_book_with_query none (some "rust") demoBooks) := by
  have h := claim_filter_correct demoBooks none (some "rust") demoBook demoFS "book.json" rfl
  exact ⟨h.2.1, h.2.2.1, h.2.2.2⟩

/-- C7: on a duplicate-free catalog the by-id lookup returns the
sequence of zero-or-one matching records; a nonexistent id yields the
empty sequence and the handler still answers `.ok`, never a read or
parse error and never an HTTP-level failure. -/
theorem claim_find_by_id (books : List Book) (i : Nat) (r : Book) (fs : FS) (path : String)
    (hn : (books.map Book.id).Nodup)
    (hread : read_books_from_file fs path = .ok books) :
    (get_book_by_id books i).length ≤ 1 ∧
    (r ∈ get_book_by_id books i ↔ r ∈ books ∧ r.id = i) ∧
    ((∀ x ∈ books, x.id ≠ i) → get_book_by_id books i = []) ∧
    get_book_by_id_handler fs path i = .ok (get_book_by_id books i) :=
  ⟨get_book_by_id_length_le books i hn, mem_get_book_by_id books i r,
   get_book_by_id_eq_nil books i, get_book_by_id_handler_ok fs path books i hread⟩

/-- C7 witness: the claim evaluated at the nonexistent id 999 on the
demo catalog. -/
theorem claim_find_by_id_witness :
    (get_book_by_id demoBooks 999).length ≤ 1 ∧
    get_book_by_id demoBooks 999 = [] ∧
    get_book_by_id_handler demoFS "book.json" 999 = .ok (get_book_by_id demoBooks 999) := by
  have h := claim_find_by_id demoBooks 999 demoBook demoFS "book.json" (by decide) rfl
  exact ⟨h.1, h.2.2.1 (by decide), h.2.2.2⟩

/-- C8: `load_users` returns the empty sequence when the credential
file is missing and likewise when it exists but its contents fail to
deserialize; its total return type `List User` surfaces no error in
either case. -/
theorem claim_load_users_lenient (fsM fsP : FS) (j : Json)
    (hM : fsM.contents "users.json" = none)
    (hP : fsP.contents "users.json" = some j)
    (hbad : decodeUsers j = none) :
    load_users fsM = [] ∧ load_users fsP = [] :=
  ⟨load_users_of_missing fsM hM, load_users_of_bad_shape fsP j hP hbad⟩

/-- C8 witness: the claim evaluated on a missing credential file and on
one holding a JSON string instead of an array. -/
theorem claim_load_users_lenient_witness :
    load_users emptyFS = [] ∧ load_users badUsersFS = [] :=
  claim_load_users_lenient emptyFS badUsersFS (.str "oops") rfl rfl rfl

/-- C9: upserting the same book twice yields the same catalog as
upserting it once, both as the returned value and as the persisted
file contents (the second handler run returns the same catalog and
leaves the file contents of every path unchanged). -/
theorem claim_upsert_idempotent (books : List Book) (b : Book) (fs : FS) (path : String)
    (hread : read_books_from_file fs path = .ok books)
    (hw : fs.writable path = true)
    (hids : ∀ x ∈ books, x.id < 2 ^ 32) (hb : b.id < 2 ^ 32) :
    add_or_update_book (add_or_update_book books b) b = add_or_update_book books b ∧
    ∃ fs₁ fs₂, add_or_update_book_handler fs path b = .ok (fs₁, add_or_update_book books b) ∧
      add_or_update_book_handler fs₁ path b = .ok (fs₂, add_or_update_book books b) ∧
      ∀ p, fs₂.contents p = fs₁.contents p := by
  refine ⟨add_or_update_idem books b, ?_⟩
  obtain ⟨fs₁, h1, h2, h3, h4⟩ := add_or_update_handler_ok fs path books b hread hw
  have hids1 : ∀ x ∈ add_or_update_book books b, x.id < 2 ^ 32 :=
    ids_lt_add_or_update books b hids hb
  have hread1 : read_books_from_file fs₁ path = .ok (add_or_update_book books b) :=
    read_ok_of_contents fs₁ path _ h2 hids1
  have hw1 : fs₁.writable path = true := by
    rw [h3]
    exact hw
  obtain ⟨fs₂, g1, g2, g3, g4⟩ :=
    add_or_update_handler_ok fs₁ path (add_or_update_book books b) b hread1 hw1
  rw [add_or_update_idem books b] at g1 g2
  refine ⟨fs₁, fs₂, h1, g1, ?_⟩
  intro p
  by_cases hp : p = path
  · rw [hp, g2, h2]
  · rw [g4 p hp]

/-- C9 witness: idempotence evaluated on the demo catalog. -/
theorem claim_upsert_idempotent_witness :
    add_or_update_book (add_or_update_book demoBooks demoBook) demoBook
      = add_or_update_book demoBooks demoBook :=
  (claim_upsert_idempotent demoBooks demoBook demoFS "book.json" rfl rfl
    (by decide) (by decide)).1

/-- C10: writing any catalog whose ids are `u32`-representable and
reading the same file back succeeds and restores the catalog. -/
theorem claim_write_read_roundtrip (fs : FS) (path : String) (books : List Book)
    (hw : fs.writable path = true) (hids : ∀ b ∈ books, b.id < 2 ^ 32) :
    ∃ fs', write_books_to_file fs path books = .ok fs' ∧
      read_books_from_file fs' path = .ok books := by
  obtain ⟨fs', h1, h2, _, _⟩ := write_read_ok fs path books hw hids
  exact ⟨fs', h1, h2⟩

/-- C10 witness: the round trip evaluated on the demo catalog starting
from an empty file system. -/
theorem claim_write_read_roundtrip_witness :
    ∃ fs', write_books_to_file emptyFS "book.json" demoBooks = .ok fs' ∧
      read_books_from_file fs' "book.json" = .ok demoBooks :=
  claim_write_read_roundtrip emptyFS "book.json" demoBooks rfl (by decide)

end Books
